import Mathlib

/-!
Verification development for the arrow interchange codec layer
(`src/common/src/array/arrow/arrow_impl.rs`): conversion between the
engine's internal columnar arrays (`ArrayImpl`, `DataChunk`) and the
external columnar interchange format (arrow `Field` / arrays /
`RecordBatch`).

Machine integers are modelled as `Nat`/`Int` with explicit reductions
modulo `2 ^ w`; fallible code returns `Except ArrayError`.  External
library pieces (the interchange cast, the batch constructor) and
repository code outside the sampled sources (the `Interval`/`Decimal`
carrier types, chunk compaction) are modelled from the specification and
marked `Modelled from the spec:` in their doc comments.
-/

namespace RW

/-! ### Two's-complement helpers

`toUnsigned w x` is the low `w`-bit pattern of the integer `x` (the Rust
cast `x as uW`), `toSigned w n` reinterprets a `w`-bit pattern as a
signed integer (the Rust cast `n as iW`), and `asr x k` is the
arithmetic (sign-propagating) right shift `x >> k` on a signed integer,
i.e. floor division by `2 ^ k`. -/

def toUnsigned (w : Nat) (x : Int) : Nat :=
  (x % (2 : Int) ^ w).toNat

def toSigned (w : Nat) (n : Nat) : Int :=
  if n < 2 ^ (w - 1) then (n : Int) else (n : Int) - 2 ^ w

def asr (x : Int) (k : Nat) : Int :=
  x / (2 : Int) ^ k

/-! ### Internal scalar carriers

`Modelled from the spec:` the internal `Interval` scalar (outside the
sampled sources; §4.4, §6 of the spec) is a triple of a 32-bit signed
month count, a 32-bit signed day count and a 64-bit signed microsecond
count; `from_month_day_usec` is its constructor and `months`/`days`/
`usecs` are its field accessors. -/

structure Interval where
  months : Int
  days : Int
  usecs : Int
deriving DecidableEq, Repr

def Interval.from_month_day_usec (months days usecs : Int) : Interval :=
  ⟨months, days, usecs⟩

/-- The scalar codec `FromIntoArrow for Interval :: into_arrow` from the
source: each sub-field is masked to its width after sign extension and
the three fields are packed low-to-high as
`months | days << 32 | nanoseconds << 64` into an `i128`; the
nanosecond product `usecs * 1000` is 64-bit integer arithmetic and
wraps. -/
def Interval.into_arrow (iv : Interval) : Int :=
  let m := toUnsigned 32 iv.months
  let d := (toUnsigned 32 iv.days) <<< 32
  let n := (toUnsigned 64 (iv.usecs * 1000)) <<< 64
  toSigned 128 (m ||| d ||| n)

/-- The scalar codec `FromIntoArrow for Interval :: from_arrow` from the
source: `months = value as i32`, `days = (value >> 32) as i32`,
`ns = (value >> 64) as i64`, result `from_month_day_usec months days
(ns / 1000)` (Rust `/` on `i64` truncates toward zero, `Int.tdiv`). -/
def Interval.from_arrow (value : Int) : Interval :=
  let months := toSigned 32 (toUnsigned 32 value)
  let days := toSigned 32 (toUnsigned 32 (asr value 32))
  let ns := toSigned 64 (toUnsigned 64 (asr value 64))
  Interval.from_month_day_usec months days (Int.tdiv ns 1000)

/-! ### Decimal model

`Modelled from the spec:` the internal `Decimal` scalar (outside the
sampled sources) is either a finite scaled decimal (`Normalized`, an
integer mantissa with a base-10 scale) or one of the three reserved
non-finite values; its text form (§4.2, §6) is a locale-free plain
numeral, or one of the sentinel literals `NaN` / `Infinity` /
`-Infinity`, and parsing accepts exactly these forms back. -/

inductive Decimal where
  | Normalized (mantissa : Int) (scale : Nat)
  | NaN
  | PositiveInf
  | NegativeInf
deriving DecidableEq, Repr

def decimalNaNText : String := "NaN"

def decimalPosInfText : String := "Infinity"

def decimalNegInfText : String := "-Infinity"

def decimalMinusSign : String := "-"

def decimalPoint : String := "."

/-- Left-pads a digit string with zeros to width `w`. -/
def padZeros (s : String) (w : Nat) : String :=
  String.mk (List.replicate (w - s.length) '0') ++ s

/-- Modelled from the spec: the locale-free text rendering of a decimal
value (integer part, decimal point, fraction part zero-padded to the
scale), with the three sentinel literals for the non-finite values. -/
def Decimal.toText : Decimal → String
  | .NaN => decimalNaNText
  | .PositiveInf => decimalPosInfText
  | .NegativeInf => decimalNegInfText
  | .Normalized m s =>
    let a := m.natAbs
    let ip := a / 10 ^ s
    let fp := a % 10 ^ s
    (if m < 0 then decimalMinusSign else "") ++ toString ip ++
      (if s = 0 then "" else decimalPoint ++ padZeros (toString fp) s)

def digitVal (c : Char) : Option Nat :=
  if '0' ≤ c ∧ c ≤ '9' then some (c.toNat - 48) else none

def parseDigits : List Char → Option Nat
  | [] => none
  | cs => cs.foldl (fun acc c => do pure ((← acc) * 10 + (← digitVal c))) (some 0)

/-- Modelled from the spec: parsing the plain-numeral text form of a
decimal value; the scale is the number of fraction digits. -/
def parseNumeral (s : String) : Option Decimal :=
  let cs := s.toList
  let (neg, cs) := match cs with
    | '-' :: r => (true, r)
    | '+' :: r => (false, r)
    | r => (false, r)
  let (ipart, rest) := cs.span (fun c => decide ('0' ≤ c ∧ c ≤ '9'))
  match rest with
  | [] => do
    let ip ← parseDigits ipart
    pure (.Normalized (if neg then -(ip : Int) else (ip : Int)) 0)
  | '.' :: fpart => do
    let ip ← parseDigits ipart
    let fp ← parseDigits fpart
    let mantissa : Nat := ip * 10 ^ fpart.length + fp
    pure (.Normalized (if neg then -(mantissa : Int) else (mantissa : Int)) fpart.length)
  | _ => none

/-- Modelled from the spec: decimal text parsing accepts the three
sentinel literals and plain numerals, and nothing else. -/
def Decimal.parseText (s : String) : Option Decimal :=
  if s = decimalNaNText then some .NaN
  else if s = decimalPosInfText then some .PositiveInf
  else if s = decimalNegInfText then some .NegativeInf
  else parseNumeral s

/-! ### The internal logical type system (`crate::types::DataType`)

The closed variant set of §3 of the spec, as dispatched on by
`to_arrow_field` in the source.  A `StructType` is the ordered named
field list of a struct type. -/

inductive DataType where
  | Boolean
  | Int16
  | Int32
  | Int64
  | Int256
  | Float32
  | Float64
  | Date
  | Time
  | Timestamp
  | Timestamptz
  | Interval
  | Varchar
  | Bytea
  | Decimal
  | Jsonb
  | Serial
  | Struct (fields : List (String × DataType))
  | List (elem : DataType)

/-! ### The interchange (arrow) schema model

`ADataType` is `arrow_schema::DataType` restricted to the variants this
codec produces or consumes; `AField` is `arrow_schema::Field` (name,
data type, nullability, string-keyed metadata).  Time units and
interval units are carried so that the decoder's unit matching is
faithful. -/

inductive ATimeUnit where
  | Second
  | Millisecond
  | Microsecond
  | Nanosecond
deriving DecidableEq, Repr

inductive AIntervalUnit where
  | YearMonth
  | DayTime
  | MonthDayNano
deriving DecidableEq, Repr

mutual

inductive ADataType where
  | Boolean
  | Int16
  | Int32
  | Int64
  | Float32
  | Float64
  | Decimal128 (precision : Nat) (scale : Int)
  | Decimal256 (precision : Nat) (scale : Int)
  | Date32
  | Time64 (unit : ATimeUnit)
  | Timestamp (unit : ATimeUnit) (tz : Option String)
  | Interval (unit : AIntervalUnit)
  | Utf8
  | LargeUtf8
  | Binary
  | LargeBinary
  | List (item : AField)
  | Struct (fields : List AField)

inductive AField where
  | mk (name : String) (dataType : ADataType) (nullable : Bool)
       (metadata : List (String × String))

end

def AField.name : AField → String
  | .mk n _ _ _ => n

def AField.dataType : AField → ADataType
  | .mk _ dt _ _ => dt

def AField.nullable : AField → Bool
  | .mk _ _ nb _ => nb

def AField.metadata : AField → List (String × String)
  | .mk _ _ _ md => md

/-- `arrow_schema::Field::new(name, data_type, nullable)`. -/
def fieldNew (name : String) (dataType : ADataType) (nullable : Bool) : AField :=
  .mk name dataType nullable []

/-- `Field::with_metadata`. -/
def AField.withMetadata : AField → List (String × String) → AField
  | .mk n dt nb _, md => .mk n dt nb md

/-! Structural equality on interchange data types and fields (Rust
`PartialEq` for `arrow_schema::DataType` / `Field`), used by
`to_array`'s `!=` test. -/

mutual

def beqADataType : ADataType → ADataType → Bool
  | .Boolean, .Boolean => true
  | .Int16, .Int16 => true
  | .Int32, .Int32 => true
  | .Int64, .Int64 => true
  | .Float32, .Float32 => true
  | .Float64, .Float64 => true
  | .Decimal128 p s, .Decimal128 p' s' => p == p' && s == s'
  | .Decimal256 p s, .Decimal256 p' s' => p == p' && s == s'
  | .Date32, .Date32 => true
  | .Time64 u, .Time64 u' => u == u'
  | .Timestamp u tz, .Timestamp u' tz' => u == u' && tz == tz'
  | .Interval u, .Interval u' => u == u'
  | .Utf8, .Utf8 => true
  | .LargeUtf8, .LargeUtf8 => true
  | .Binary, .Binary => true
  | .LargeBinary, .LargeBinary => true
  | .List f, .List f' => beqAField f f'
  | .Struct fs, .Struct fs' => beqAFieldList fs fs'
  | _, _ => false

def beqAField : AField → AField → Bool
  | .mk n dt nb md, .mk n' dt' nb' md' =>
    n == n' && beqADataType dt dt' && nb == nb' && md == md'

def beqAFieldList : List AField → List AField → Bool
  | [], [] => true
  | f :: fs, f' :: fs' => beqAField f f' && beqAFieldList fs fs'
  | _, _ => false

end

/-! ### Internal arrays (`crate::array::ArrayImpl`)

Each variant carries its values at the granularity the conversion code
iterates over them (`array.iter()` yields `Option` values, one per
row).  Value carriers: machine integers are `Int`; `Float32`/`Float64`
values are their (abstract) bit patterns as `Nat`, since the codec
moves them bitwise; `Date` is its day number (the `chrono` date ↔
`Date32` day count bijection); `Time`/`Timestamp`/`Timestamptz` are
microsecond counts (the codec's fixed unit); `Bytea` values are byte
lists; `Decimal` values are the `Decimal` model above; `Jsonb` values
are carried as their canonical minified text (the only attribute of a
json value this codec reads or writes).  `List` carries the child
array, validity bitmap and `u32` offsets buffer of the source's
`ListArray`; `Struct` carries the field set (`StructType`), child
arrays and validity bitmap of the source's `StructArray`. -/

inductive ArrayImpl where
  | Bool (data : List (Option Bool))
  | Int16 (data : List (Option Int))
  | Int32 (data : List (Option Int))
  | Int64 (data : List (Option Int))
  | Int256 (data : List (Option Int))
  | Float32 (data : List (Option Nat))
  | Float64 (data : List (Option Nat))
  | Date (data : List (Option Int))
  | Time (data : List (Option Int))
  | Timestamp (data : List (Option Int))
  | Timestamptz (data : List (Option Int))
  | Interval (data : List (Option RW.Interval))
  | Utf8 (data : List (Option String))
  | Bytea (data : List (Option (List Nat)))
  | Decimal (data : List (Option RW.Decimal))
  | Jsonb (data : List (Option String))
  | Serial (data : List (Option Int))
  | List (value : ArrayImpl) (bitmap : List Bool) (offsets : List Nat)
  | Struct (fields : List (String × DataType)) (children : List ArrayImpl)
           (bitmap : List Bool)

/-! ### Interchange arrays (`arrow_array::*`)

One variant per concrete arrow array type this codec produces or
consumes, carrying per-row `Option` values exactly as the conversion
iterators see them.  A list array carries its item field, `i32`
offsets, child array and optional null buffer; a struct array carries
its fields, child columns and optional null buffer. -/

inductive ArrowArray where
  | Boolean (data : List (Option Bool))
  | Int16 (data : List (Option Int))
  | Int32 (data : List (Option Int))
  | Int64 (data : List (Option Int))
  | Float32 (data : List (Option Nat))
  | Float64 (data : List (Option Nat))
  | Decimal256 (precision : Nat) (scale : Int) (data : List (Option Int))
  | Date32 (data : List (Option Int))
  | Time64Microsecond (data : List (Option Int))
  | TimestampMicrosecond (tz : Option String) (data : List (Option Int))
  | IntervalMonthDayNano (data : List (Option Int))
  | Utf8 (data : List (Option String))
  | LargeUtf8 (data : List (Option String))
  | Binary (data : List (Option (List Nat)))
  | LargeBinary (data : List (Option (List Nat)))
  | List (field : AField) (offsets : List Int) (values : ArrowArray)
         (nulls : Option (List Bool))
  | Struct (fields : List AField) (columns : List ArrowArray)
           (nulls : Option (List Bool))

/-- `Array::data_type()` of an interchange array. -/
def ArrowArray.dataType : ArrowArray → ADataType
  | .Boolean _ => .Boolean
  | .Int16 _ => .Int16
  | .Int32 _ => .Int32
  | .Int64 _ => .Int64
  | .Float32 _ => .Float32
  | .Float64 _ => .Float64
  | .Decimal256 p s _ => .Decimal256 p s
  | .Date32 _ => .Date32
  | .Time64Microsecond _ => .Time64 .Microsecond
  | .TimestampMicrosecond tz _ => .Timestamp .Microsecond tz
  | .IntervalMonthDayNano _ => .Interval .MonthDayNano
  | .Utf8 _ => .Utf8
  | .LargeUtf8 _ => .LargeUtf8
  | .Binary _ => .Binary
  | .LargeBinary _ => .LargeBinary
  | .List f _ _ _ => .List f
  | .Struct fs _ _ => .Struct fs

/-- `Array::len()` of an interchange array (list: offsets length minus
one; struct: length of the first column, else of the null buffer). -/
def ArrowArray.len : ArrowArray → Nat
  | .Boolean d => d.length
  | .Int16 d => d.length
  | .Int32 d => d.length
  | .Int64 d => d.length
  | .Float32 d => d.length
  | .Float64 d => d.length
  | .Decimal256 _ _ d => d.length
  | .Date32 d => d.length
  | .Time64Microsecond d => d.length
  | .TimestampMicrosecond _ d => d.length
  | .IntervalMonthDayNano d => d.length
  | .Utf8 d => d.length
  | .LargeUtf8 d => d.length
  | .Binary d => d.length
  | .LargeBinary d => d.length
  | .List _ offsets _ _ => offsets.length - 1
  | .Struct _ columns nulls =>
    match columns with
    | c :: _ => c.len
    | [] => match nulls with
      | some l => l.length
      | none => 0

/-- Row count of an internal array (`Array::len()`): length of the
value list for flat arrays, of the validity bitmap for composites. -/
def ArrayImpl.len : ArrayImpl → Nat
  | .Bool d => d.length
  | .Int16 d => d.length
  | .Int32 d => d.length
  | .Int64 d => d.length
  | .Int256 d => d.length
  | .Float32 d => d.length
  | .Float64 d => d.length
  | .Date d => d.length
  | .Time d => d.length
  | .Timestamp d => d.length
  | .Timestamptz d => d.length
  | .Interval d => d.length
  | .Utf8 d => d.length
  | .Bytea d => d.length
  | .Decimal d => d.length
  | .Jsonb d => d.length
  | .Serial d => d.length
  | .List _ bitmap _ => bitmap.length
  | .Struct _ _ bitmap => bitmap.length

/-! ### Errors (`crate::array::ArrayError`) -/

inductive ArrayError where
  | to_arrow (msg : String)
  | from_arrow (msg : String)
  | internal (msg : String)
deriving DecidableEq, Repr

def invalidListTypeMsg : String := "Invalid list type"

def invalidStructTypeMsg : String := "Invalid struct type"

/-- The decoder's message for an unrecognized extension tag
(`format!` with the `{:?}` debug rendering of the tag string). -/
def unsupportedExtMsg (type_name : String) : String :=
  "unsupported extension type: " ++ reprStr type_name

def unsupportedTypeMsg : String := "unsupported arrow data type"

def expectDecimalStringMsg : String :=
  "expected string array for `arrowudf.decimal`"

def expectJsonStringMsg : String :=
  "expected string array for `arrowudf.json`"

def invalidDecimalMsg (s : String) : String := "invalid decimal: " ++ reprStr s

def invalidJsonMsg (s : String) : String := "invalid json: " ++ s

/-- Modelled panic of `zip_eq_fast` on length mismatch (the Rust code
aborts; nothing in this development exercises this path). -/
def zipLenMsg : String := "zip_eq_fast: length mismatch"

def castFailureMsg : String := "cast failure"

def invalidBatchMsg : String := "invalid record batch"

/-! ### Helper combinators shared by both pipelines -/

/-- `iter().map(f).try_collect()`. -/
def mapExcept (f : α → Except ArrayError β) : List α → Except ArrayError (List β)
  | [] => .ok []
  | x :: xs => do
    let y ← f x
    let ys ← mapExcept f xs
    .ok (y :: ys)

/-- `iter().map(|o| o.map(f).transpose()).try_collect()`. -/
def mapOptExcept (f : α → Except ArrayError β) :
    List (Option α) → Except ArrayError (List (Option β))
  | [] => .ok []
  | none :: xs => do
    let ys ← mapOptExcept f xs
    .ok (none :: ys)
  | some x :: xs => do
    let y ← f x
    let ys ← mapOptExcept f xs
    .ok (some y :: ys)

/-- UTF-8 bytes of a string, for the binary text carriers.  All text
this codec writes into a binary carrier is ASCII, where the UTF-8
encoding is one byte per character. -/
def strBytes (s : String) : List Nat :=
  s.toList.map Char.toNat

/-- `std::str::from_utf8`, restricted to the ASCII range (sufficient
for every text this development feeds through it). -/
def bytesToStr : List Nat → Option String
  | l => if l.all (fun b => b < 128) then some (String.mk (l.map Char.ofNat)) else none

/-! ### The outbound per-type encoders (`ToArrow` default methods)

The `converts!`-generated `From` impls are element-wise identities at
the `Option` level for the plain carriers, and `FromIntoArrow` value
maps for the mapped carriers (floats and dates move bitwise / by day
number, times and timestamps by microsecond count, so those value maps
are identities of the chosen carriers; the interval map is
`Interval.into_arrow`). -/

def bool_to_arrow (d : List (Option Bool)) : Except ArrayError ArrowArray :=
  .ok (.Boolean d)

def int16_to_arrow (d : List (Option Int)) : Except ArrayError ArrowArray :=
  .ok (.Int16 d)

def int32_to_arrow (d : List (Option Int)) : Except ArrayError ArrowArray :=
  .ok (.Int32 d)

def int64_to_arrow (d : List (Option Int)) : Except ArrayError ArrowArray :=
  .ok (.Int64 d)

def arrowDecimal256MaxPrecision : Nat := 76

/-- `Decimal256Array::from(&Int256Array)`; the values move bitwise.
The builder's declared precision/scale is an interchange-library
default outside the modelled scope (spec §1 non-goals); the model uses
the precision/scale the type mapper declares for Int256. -/
def int256_to_arrow (d : List (Option Int)) : Except ArrayError ArrowArray :=
  .ok (.Decimal256 arrowDecimal256MaxPrecision 0 d)

def float32_to_arrow (d : List (Option Nat)) : Except ArrayError ArrowArray :=
  .ok (.Float32 d)

def float64_to_arrow (d : List (Option Nat)) : Except ArrayError ArrowArray :=
  .ok (.Float64 d)

def date_to_arrow (d : List (Option Int)) : Except ArrayError ArrowArray :=
  .ok (.Date32 d)

def time_to_arrow (d : List (Option Int)) : Except ArrayError ArrowArray :=
  .ok (.Time64Microsecond d)

def timestamp_to_arrow (d : List (Option Int)) : Except ArrayError ArrowArray :=
  .ok (.TimestampMicrosecond none d)

def utcOffset : String := "+00:00"

def timestamptz_to_arrow (d : List (Option Int)) : Except ArrayError ArrowArray :=
  .ok (.TimestampMicrosecond (some utcOffset) d)

def interval_to_arrow (d : List (Option Interval)) : Except ArrayError ArrowArray :=
  .ok (.IntervalMonthDayNano (d.map (Option.map Interval.into_arrow)))

def utf8_to_arrow (d : List (Option String)) : Except ArrayError ArrowArray :=
  .ok (.Utf8 d)

def bytea_to_arrow (d : List (Option (List Nat))) : Except ArrayError ArrowArray :=
  .ok (.Binary d)

/-- `From<&DecimalArray> for StringArray`: each value rendered by
`to_string`, nulls appended as nulls (`decimal_to_arrow` ignores the
requested data type). -/
def decimal_to_arrow (_dt : ADataType) (d : List (Option Decimal)) :
    Except ArrayError ArrowArray :=
  .ok (.Utf8 (d.map (Option.map Decimal.toText)))

/-- `From<&JsonbArray> for StringArray`: each value written in its
canonical text form. -/
def jsonb_to_arrow (d : List (Option String)) : Except ArrayError ArrowArray :=
  .ok (.Utf8 d)

def serial_to_arrow (d : List (Option Int)) : Except ArrayError ArrowArray :=
  .ok (.Int64 d)

/-! ### The generic interchange cast -/

/-- Modelled from the spec: the value mapping of the external cast
library's float narrowing; the spec fixes only that the cast succeeds,
not the value mapping, so the abstract bit-pattern carrier moves
unchanged. -/
def float64_to_float32 (bits : Nat) : Nat := bits

/-- Modelled from the spec: likewise for widening. -/
def float32_to_float64 (bits : Nat) : Nat := bits

/-- Modelled from the spec: `arrow_cast::cast` is a generic
interchange-level cast between physical types — a same-type cast is the
identity, the numeric narrowing/widening between the float widths
succeeds, and a cast to an incompatible physical type fails (the error
that `to_array` wraps via `ArrayError::to_arrow`, the spec's
`CastFailure`). -/
def arrow_cast (a : ArrowArray) (dt : ADataType) : Except ArrayError ArrowArray :=
  match a, dt with
  | .Float64 d, .Float32 => .ok (.Float32 (d.map (Option.map float64_to_float32)))
  | .Float32 d, .Float64 => .ok (.Float64 (d.map (Option.map float32_to_float64)))
  | a, dt =>
    if beqADataType a.dataType dt then .ok a
    else .error (.to_arrow castFailureMsg)

/-! ### The interchange library's checked offsets constructor -/

/-- Adjacent-pair check of the interchange library's offsets
constructor: every offset is at most its successor. -/
def offsetsMonotone : List Int → Bool
  | a :: b :: rest => decide (a ≤ b) && offsetsMonotone (b :: rest)
  | _ => true

/-- `OffsetBuffer::new`, the interchange library's checked offsets
constructor that `list_to_arrow` hands the narrowed offsets to: it
asserts that the buffer is non-empty, that its first offset is
non-negative, and that the offsets are monotonically non-decreasing
(which together force every offset non-negative), aborting the process
otherwise.  The abort is modelled as the distinguished internal error
`offsetBufferPanicMsg`, like the `zip_eq_fast` panic. -/
def offsetBufferValid : List Int → Bool
  | [] => false
  | o :: rest => decide (0 ≤ o) && offsetsMonotone (o :: rest)

/-- Modelled panic of `OffsetBuffer::new`: its assertions abort the
process; no `ArrayError` value is ever constructed for this. -/
def offsetBufferPanicMsg : String :=
  "OffsetBuffer::new: offsets must be non-negative and monotonically non-decreasing"

/-! ### The outbound encoder (`ToArrow::to_array` and friends) -/

mutual

/-- `ToArrow::to_array`: dispatch on the internal array's variant to
the per-type encoder, then, when the produced array's physical type
differs from the requested one, apply the generic interchange cast.
The `List` arm is `ToArrow::list_to_arrow` (requires a list-typed
target, encodes the child recursively against the item field, narrows
each `u32` offset with the Rust cast `o as i32` — a low-32-bit
reinterpretation — passes the narrowed buffer through the library's
checked `OffsetBuffer::new` constructor, whose assertions abort on a
negative or non-monotone buffer, and attaches the null buffer only when
some row is invalid; the subsequent `ListArray::new` length/type checks
concern invariants the encoder maintains and are not modelled) and the
`Struct` arm is `ToArrow::struct_to_arrow` (requires a
struct-typed target, encodes each child against its positional field,
and always attaches the struct-level validity bitmap), written inline
here so the recursion is structural. -/
def to_array (data_type : ADataType) (array : ArrayImpl) :
    Except ArrayError ArrowArray := do
  let arrow_array ←
    match array with
    | .Bool d => bool_to_arrow d
    | .Int16 d => int16_to_arrow d
    | .Int32 d => int32_to_arrow d
    | .Int64 d => int64_to_arrow d
    | .Int256 d => int256_to_arrow d
    | .Float32 d => float32_to_arrow d
    | .Float64 d => float64_to_arrow d
    | .Date d => date_to_arrow d
    | .Time d => time_to_arrow d
    | .Timestamp d => timestamp_to_arrow d
    | .Timestamptz d => timestamptz_to_arrow d
    | .Interval d => interval_to_arrow d
    | .Utf8 d => utf8_to_arrow d
    | .Bytea d => bytea_to_arrow d
    | .Decimal d => decimal_to_arrow data_type d
    | .Jsonb d => jsonb_to_arrow d
    | .Serial d => serial_to_arrow d
    | .List v bm offs =>
      match data_type with
      | .List field => do
        let values ← to_array field.dataType v
        let offsets' := offs.map (fun o => toSigned 32 (o % 2 ^ 32))
        if offsetBufferValid offsets' then
          let nulls := if bm.all (fun b => b) then none else some bm
          .ok (.List field offsets' values nulls)
        else .error (.internal offsetBufferPanicMsg)
      | _ => .error (.to_arrow invalidListTypeMsg)
    | .Struct _ cs bm =>
      match data_type with
      | .Struct fields => do
        let cols ← to_arrays_zip fields cs
        .ok (.Struct fields cols (some bm))
      | _ => .error (.to_arrow invalidStructTypeMsg)
  if beqADataType arrow_array.dataType data_type then .ok arrow_array
  else arrow_cast arrow_array data_type

/-- `fields().zip_eq_fast(fields).map(to_array).try_collect()`. -/
def to_arrays_zip : List AField → List ArrayImpl → Except ArrayError (List ArrowArray)
  | [], [] => .ok []
  | f :: fs, a :: rest => do
    let x ← to_array f.dataType a
    let xs ← to_arrays_zip fs rest
    .ok (x :: xs)
  | _, _ => .error (.internal zipLenMsg)

end

/-! ### The type and field mapper (`ToArrow::to_arrow_field`) -/

def extensionKey : String := "ARROW:extension:name"

def arrowudfDecimalTag : String := "arrowudf.decimal"

def arrowudfJsonTag : String := "arrowudf.json"

def listItemName : String := "item"

def bool_type_to_arrow : ADataType := .Boolean

def int16_type_to_arrow : ADataType := .Int16

def int32_type_to_arrow : ADataType := .Int32

def int64_type_to_arrow : ADataType := .Int64

def int256_type_to_arrow : ADataType := .Decimal256 arrowDecimal256MaxPrecision 0

def float32_type_to_arrow : ADataType := .Float32

def float64_type_to_arrow : ADataType := .Float64

def date_type_to_arrow : ADataType := .Date32

def time_type_to_arrow : ADataType := .Time64 .Microsecond

def timestamp_type_to_arrow : ADataType := .Timestamp .Microsecond none

def timestamptz_type_to_arrow : ADataType := .Timestamp .Microsecond (some utcOffset)

def interval_type_to_arrow : ADataType := .Interval .MonthDayNano

def varchar_type_to_arrow : ADataType := .Utf8

def bytea_type_to_arrow : ADataType := .Binary

def serial_type_to_arrow : ADataType := .Int64

/-- `ToArrow::jsonb_type_to_arrow`: a nullable string field tagged with
the json extension name. -/
def jsonb_type_to_arrow (name : String) : AField :=
  (fieldNew name .Utf8 true).withMetadata [(extensionKey, arrowudfJsonTag)]

/-- `ToArrow::decimal_type_to_arrow`: a nullable string field tagged
with the decimal extension name. -/
def decimal_type_to_arrow (name : String) : AField :=
  (fieldNew name .Utf8 true).withMetadata [(extensionKey, arrowudfDecimalTag)]

mutual

/-- `ToArrow::to_arrow_field`: maps an internal logical type to an
interchange field; every produced field is created nullable. -/
def to_arrow_field (name : String) (value : DataType) :
    Except ArrayError AField :=
  match value with
  | .Boolean => .ok (fieldNew name bool_type_to_arrow true)
  | .Int16 => .ok (fieldNew name int16_type_to_arrow true)
  | .Int32 => .ok (fieldNew name int32_type_to_arrow true)
  | .Int64 => .ok (fieldNew name int64_type_to_arrow true)
  | .Int256 => .ok (fieldNew name int256_type_to_arrow true)
  | .Float32 => .ok (fieldNew name float32_type_to_arrow true)
  | .Float64 => .ok (fieldNew name float64_type_to_arrow true)
  | .Date => .ok (fieldNew name date_type_to_arrow true)
  | .Time => .ok (fieldNew name time_type_to_arrow true)
  | .Timestamp => .ok (fieldNew name timestamp_type_to_arrow true)
  | .Timestamptz => .ok (fieldNew name timestamptz_type_to_arrow true)
  | .Interval => .ok (fieldNew name interval_type_to_arrow true)
  | .Varchar => .ok (fieldNew name varchar_type_to_arrow true)
  | .Bytea => .ok (fieldNew name bytea_type_to_arrow true)
  | .Serial => .ok (fieldNew name serial_type_to_arrow true)
  | .Decimal => .ok (decimal_type_to_arrow name)
  | .Jsonb => .ok (jsonb_type_to_arrow name)
  | .Struct fields => do
    let fs ← to_arrow_fields fields
    .ok (fieldNew name (.Struct fs) true)
  | .List elem => do
    let item ← to_arrow_field listItemName elem
    .ok (fieldNew name (.List item) true)

/-- `ToArrow::struct_type_to_arrow`: maps each named sub-type through
`to_arrow_field`. -/
def to_arrow_fields : List (String × DataType) → Except ArrayError (List AField)
  | [] => .ok []
  | (n, t) :: rest => do
    let f ← to_arrow_field n t
    let fs ← to_arrow_fields rest
    .ok (f :: fs)

end

/-! ### Internal batches and compaction -/

/-- `crate::array::DataChunk`: the columns plus the optional pending
visibility mask of §3 of the spec (`none` = already dense). -/
structure DataChunk where
  columns : List ArrayImpl
  visibility : Option (List Bool)

/-- `DataChunk::new(columns, num_rows)` as used by the decoder: a dense
chunk with no pending mask. -/
def DataChunk.new (columns : List ArrayImpl) (_num_rows : Nat) : DataChunk :=
  ⟨columns, none⟩

/-- `DataChunk::is_compacted`: no pending visibility mask. -/
def DataChunk.is_compacted (c : DataChunk) : Bool :=
  c.visibility.isNone

/-- `DataChunk::capacity`: the physical row count of the chunk's
arrays. -/
def DataChunk.capacity (c : DataChunk) : Nat :=
  match c.columns with
  | a :: _ => a.len
  | [] => 0

/-- Rows of `l` selected by the mask `vis`. -/
def applyVis (vis : List Bool) : List α → List α
  | [] => []
  | x :: xs =>
    match vis with
    | [] => []
    | b :: bs => if b then x :: applyVis bs xs else applyVis bs xs

/-- Cumulative offsets from a list of per-row lengths. -/
def offsetsFromLens (acc : Nat) : List Nat → List Nat
  | [] => [acc]
  | n :: rest => acc :: offsetsFromLens (acc + n) rest

/-- Consecutive-pair differences of an offsets buffer: per-row element
counts. -/
def lensFromOffsets : List Nat → List Nat
  | o₁ :: o₂ :: rest => (o₂ - o₁) :: lensFromOffsets (o₂ :: rest)
  | _ => []

/-- Element-level mask induced by a row mask over a list array: row
`i`'s elements all inherit row `i`'s visibility. -/
def elemVis : List Nat → List Bool → List Bool
  | [], _ => []
  | _, [] => []
  | n :: lens, b :: vis => List.replicate n b ++ elemVis lens vis

mutual

/-- Modelled from the spec (§4.5): materializes only the rows selected
by `vis`, preserving their order and their validity bits; for a list
column the surviving rows' element ranges are materialized contiguously
in the child and the offsets rebuilt, for a struct column the children
are filtered row-wise alongside the struct bitmap. -/
def filterRows (vis : List Bool) (a : ArrayImpl) : ArrayImpl :=
  match a with
  | .Bool d => .Bool (applyVis vis d)
  | .Int16 d => .Int16 (applyVis vis d)
  | .Int32 d => .Int32 (applyVis vis d)
  | .Int64 d => .Int64 (applyVis vis d)
  | .Int256 d => .Int256 (applyVis vis d)
  | .Float32 d => .Float32 (applyVis vis d)
  | .Float64 d => .Float64 (applyVis vis d)
  | .Date d => .Date (applyVis vis d)
  | .Time d => .Time (applyVis vis d)
  | .Timestamp d => .Timestamp (applyVis vis d)
  | .Timestamptz d => .Timestamptz (applyVis vis d)
  | .Interval d => .Interval (applyVis vis d)
  | .Utf8 d => .Utf8 (applyVis vis d)
  | .Bytea d => .Bytea (applyVis vis d)
  | .Decimal d => .Decimal (applyVis vis d)
  | .Jsonb d => .Jsonb (applyVis vis d)
  | .Serial d => .Serial (applyVis vis d)
  | .List v bm offs =>
    let lens := lensFromOffsets offs
    .List (filterRows (elemVis lens vis) v) (applyVis vis bm)
      (offsetsFromLens 0 (applyVis vis lens))
  | .Struct fs cs bm =>
    .Struct fs (filterRowsAll vis cs) (applyVis vis bm)

def filterRowsAll (vis : List Bool) : List ArrayImpl → List ArrayImpl
  | [] => []
  | c :: cs => filterRows vis c :: filterRowsAll vis cs

end

/-- Modelled from the spec (§4.5): `DataChunk::compact` resolves the
pending visibility mask into a dense, mask-free chunk. -/
def DataChunk.compact (c : DataChunk) : DataChunk :=
  match c.visibility with
  | none => c
  | some vis => ⟨c.columns.map (filterRows vis), none⟩

/-! ### Interchange schemas and batches -/

structure Schema where
  fields : List AField

structure RecordBatch where
  schema : Schema
  columns : List ArrowArray
  num_rows : Nat

/-- Modelled from the spec: the interchange library's checked batch
constructor (`RecordBatch::try_new_with_options` with an explicit row
count) — column count must match the schema, every column's physical
type must match its field's declared type, and every column must have
the given row count. -/
def recordBatchTryNew (schema : Schema) (columns : List ArrowArray)
    (row_count : Nat) : Except ArrayError RecordBatch :=
  if schema.fields.length == columns.length
      && (schema.fields.zip columns).all
           (fun p => beqADataType p.1.dataType p.2.dataType)
      && columns.all (fun c => c.len == row_count) then
    .ok ⟨schema, columns, row_count⟩
  else
    .error (.to_arrow invalidBatchMsg)

/-- `columns.zip_eq_fast(schema.fields).map(to_array).try_collect()`. -/
def columnsToArrays : List AField → List ArrayImpl → Except ArrayError (List ArrowArray)
  | [], [] => .ok []
  | f :: fs, a :: rest => do
    let x ← to_array f.dataType a
    let xs ← columnsToArrays fs rest
    .ok (x :: xs)
  | _, _ => .error (.internal zipLenMsg)

/-- `ToArrow::to_record_batch`: a chunk with a pending visibility mask
is first compacted and re-submitted (the source's tail call; compaction
yields a dense chunk, so that call takes the dense branch and the
recursion is exactly this one unfolding, written here directly — the
recursive equation is proved as `to_record_batch_compacts`); a dense
chunk has each column converted against its positional schema field and
the results recomposed into a batch with the chunk's row count. -/
def to_record_batch (schema : Schema) (chunk : DataChunk) :
    Except ArrayError RecordBatch :=
  let c := if chunk.is_compacted then chunk else chunk.compact
  do
    let columns ← columnsToArrays schema.fields c.columns
    recordBatchTryNew schema columns c.capacity

/-! ### The inbound decoder (`FromArrow`) -/

/-- `FromArrow::from_large_utf8`: legacy-compatible alias of Varchar. -/
def from_large_utf8 : Except ArrayError DataType := .ok .Varchar

/-- `FromArrow::from_large_binary`: legacy-compatible alias of Bytea. -/
def from_large_binary : Except ArrayError DataType := .ok .Bytea

/-- `FromArrow::from_extension_type`: recognizes exactly the two
extension tags on their string carrier; anything else is an error. -/
def from_extension_type (type_name : String) (physical_type : ADataType) :
    Except ArrayError DataType :=
  match type_name, physical_type with
  | "arrowudf.decimal", .Utf8 => .ok .Decimal
  | "arrowudf.json", .Utf8 => .ok .Jsonb
  | _, _ => .error (.from_arrow (unsupportedExtMsg type_name))

mutual

/-- `FromArrow::from_field`: the extension tag, when present, is
dispatched before the physical-type switch (the source's early
`return`); the switch itself is `from_field_by_type` below. -/
def from_field (f : AField) : Except ArrayError DataType :=
  match f with
  | .mk _ dt _ md =>
    match md.lookup extensionKey with
    | some type_name => from_extension_type type_name dt
    | none => from_field_by_type dt

/-- The physical-type switch of `FromArrow::from_field` (the `match
field.data_type()` reached when no extension tag is present). -/
def from_field_by_type (dt : ADataType) : Except ArrayError DataType :=
  match dt with
  | .Boolean => .ok .Boolean
  | .Int16 => .ok .Int16
  | .Int32 => .ok .Int32
  | .Int64 => .ok .Int64
  | .Float32 => .ok .Float32
  | .Float64 => .ok .Float64
  | .Decimal128 _ _ => .ok .Decimal
  | .Decimal256 _ _ => .ok .Int256
  | .Date32 => .ok .Date
  | .Time64 .Microsecond => .ok .Time
  | .Timestamp .Microsecond none => .ok .Timestamp
  | .Timestamp .Microsecond (some _) => .ok .Timestamptz
  | .Interval .MonthDayNano => .ok .Interval
  | .Utf8 => .ok .Varchar
  | .Binary => .ok .Bytea
  | .LargeUtf8 => from_large_utf8
  | .LargeBinary => from_large_binary
  | .List item => do
    let t ← from_field item
    .ok (.List t)
  | .Struct fields => do
    let st ← from_fields fields
    .ok (.Struct st)
  | _ => .error (.from_arrow unsupportedTypeMsg)

/-- `FromArrow::from_fields`: rebuilds a `StructType` from interchange
fields. -/
def from_fields : List AField → Except ArrayError (List (String × DataType))
  | [] => .ok []
  | f :: fs => do
    let t ← from_field f
    let ts ← from_fields fs
    .ok ((f.name, t) :: ts)

end

/-! ### Text-carrier array conversions (decimal and jsonb) -/

/-- `TryFrom<&StringArray> for DecimalArray`: parse each value. -/
def decimalFromStrings (d : List (Option String)) :
    Except ArrayError (List (Option Decimal)) :=
  mapOptExcept
    (fun s =>
      match Decimal.parseText s with
      | some v => .ok v
      | none => .error (.from_arrow (invalidDecimalMsg s)))
    d

/-- `TryFrom<&LargeBinaryArray> for DecimalArray`: UTF-8-decode each
value, then parse. -/
def decimalFromLargeBinary (d : List (Option (List Nat))) :
    Except ArrayError (List (Option Decimal)) :=
  mapOptExcept
    (fun bs =>
      match bytesToStr bs with
      | none => .error (.from_arrow (invalidDecimalMsg ""))
      | some s =>
        match Decimal.parseText s with
        | some v => .ok v
        | none => .error (.from_arrow (invalidDecimalMsg s)))
    d

/-- `From<&DecimalArray> for LargeBinaryArray`: each value rendered by
`to_string` into bytes. -/
def decimalToLargeBinary (d : List (Option Decimal)) : List (Option (List Nat)) :=
  d.map (Option.map (fun v => strBytes v.toText))

/-- Modelled from the spec: a Jsonb value is carried as its canonical
minified text, and parsing the canonical text yields the value back
(parse failure on ill-formed text is not modelled; nothing proved here
depends on it). -/
def jsonbParse (s : String) : Except ArrayError String := .ok s

/-- `TryFrom<&StringArray> for JsonbArray`: parse each value. -/
def jsonbFromStrings (d : List (Option String)) :
    Except ArrayError (List (Option String)) :=
  mapOptExcept jsonbParse d

/-- `FromArrow::from_extension_array`: tag-keyed dispatch; each
recognized tag requires the string carrier, anything else is an
error. -/
def from_extension_array (type_name : String) (array : ArrowArray) :
    Except ArrayError ArrayImpl :=
  match type_name with
  | "arrowudf.decimal" =>
    match array with
    | .Utf8 d => do
      let v ← decimalFromStrings d
      .ok (.Decimal v)
    | _ => .error (.from_arrow expectDecimalStringMsg)
  | "arrowudf.json" =>
    match array with
    | .Utf8 d => do
      let v ← jsonbFromStrings d
      .ok (.Jsonb v)
    | _ => .error (.from_arrow expectJsonStringMsg)
  | _ => .error (.from_arrow (unsupportedExtMsg type_name))

/-! ### The per-type decoders (`FromArrow::from_*_array`) -/

def from_bool_array (d : List (Option Bool)) : Except ArrayError ArrayImpl :=
  .ok (.Bool d)

def from_int16_array (d : List (Option Int)) : Except ArrayError ArrayImpl :=
  .ok (.Int16 d)

def from_int32_array (d : List (Option Int)) : Except ArrayError ArrayImpl :=
  .ok (.Int32 d)

def from_int64_array (d : List (Option Int)) : Except ArrayError ArrayImpl :=
  .ok (.Int64 d)

def from_int256_array (d : List (Option Int)) : Except ArrayError ArrayImpl :=
  .ok (.Int256 d)

def from_float32_array (d : List (Option Nat)) : Except ArrayError ArrayImpl :=
  .ok (.Float32 d)

def from_float64_array (d : List (Option Nat)) : Except ArrayError ArrayImpl :=
  .ok (.Float64 d)

def from_date32_array (d : List (Option Int)) : Except ArrayError ArrayImpl :=
  .ok (.Date d)

def from_time64us_array (d : List (Option Int)) : Except ArrayError ArrayImpl :=
  .ok (.Time d)

/-- `FromArrow::from_timestampus_array`: any microsecond timestamp
array — zoned or not — decodes to the naive internal Timestamp. -/
def from_timestampus_array (d : List (Option Int)) : Except ArrayError ArrayImpl :=
  .ok (.Timestamp d)

def from_interval_array (d : List (Option Int)) : Except ArrayError ArrayImpl :=
  .ok (.Interval (d.map (Option.map Interval.from_arrow)))

def from_utf8_array (d : List (Option String)) : Except ArrayError ArrayImpl :=
  .ok (.Utf8 d)

def from_binary_array (d : List (Option (List Nat))) : Except ArrayError ArrayImpl :=
  .ok (.Bytea d)

def from_large_utf8_array (d : List (Option String)) : Except ArrayError ArrayImpl :=
  .ok (.Utf8 d)

def from_large_binary_array (d : List (Option (List Nat))) :
    Except ArrayError ArrayImpl :=
  .ok (.Bytea d)

/-- `NullBuffer::is_valid` on an optional null buffer (absent buffer:
every row valid). -/
def nullsIsValid (nulls : Option (List Bool)) (i : Nat) : Bool :=
  match nulls with
  | none => true
  | some l => l.getD i false

mutual

/-- Worker of `FromArrow::from_array` with the field's extension-tag
lookup result passed in (`ext = field.metadata().get("ARROW:extension:name")`):
the tag, when present, is dispatched to the extension decoder before
the physical-type switch; otherwise dispatch on the array's physical
type.  The `List` arm is `from_list_array` (decode the child against
the item field, widen the offsets back to `u32` via `*o as u32`,
rebuild the bitmap from the null buffer, all ones when absent) and the
`Struct` arm is `from_struct_array` (rebuild the field set via
`from_fields`, decode each column against its field, rebuild the
struct-level bitmap from `is_valid` over the array's length), written
inline here so the recursion is structural. -/
def from_array_tagged (ext : Option String) (array : ArrowArray) :
    Except ArrayError ArrayImpl :=
  match ext with
  | some type_name => from_extension_array type_name array
  | none =>
    match array with
    | .Boolean d => from_bool_array d
    | .Int16 d => from_int16_array d
    | .Int32 d => from_int32_array d
    | .Int64 d => from_int64_array d
    | .Decimal256 _ _ d => from_int256_array d
    | .Float32 d => from_float32_array d
    | .Float64 d => from_float64_array d
    | .Date32 d => from_date32_array d
    | .Time64Microsecond d => from_time64us_array d
    | .TimestampMicrosecond _ d => from_timestampus_array d
    | .IntervalMonthDayNano d => from_interval_array d
    | .Utf8 d => from_utf8_array d
    | .Binary d => from_binary_array d
    | .LargeUtf8 d => from_large_utf8_array d
    | .LargeBinary d => from_large_binary_array d
    | .List field offsets values nulls => do
      let value ← from_array_tagged (field.metadata.lookup extensionKey) values
      let bitmap :=
        match nulls with
        | some l => l
        | none => List.replicate (offsets.length - 1) true
      .ok (.List value bitmap (offsets.map (fun o => toUnsigned 32 o)))
    | .Struct fields columns nulls => do
      let st ← from_fields fields
      let children ← from_arrays_zip fields columns
      let len := (ArrowArray.Struct fields columns nulls).len
      .ok (.Struct st children ((List.range len).map (fun i => nullsIsValid nulls i)))

/-- `columns().iter().zip_eq_fast(fields).map(from_array).try_collect()`. -/
def from_arrays_zip (fs : List AField) (arrays : List ArrowArray) :
    Except ArrayError (List ArrayImpl) :=
  match fs, arrays with
  | [], [] => .ok []
  | f :: fs', a :: rest => do
    let x ← from_array_tagged (f.metadata.lookup extensionKey) a
    let xs ← from_arrays_zip fs' rest
    .ok (x :: xs)
  | _, _ => .error (.internal zipLenMsg)

end

/-- `FromArrow::from_array`: looks up the field's extension tag and
runs the worker. -/
def from_array (f : AField) (array : ArrowArray) : Except ArrayError ArrayImpl :=
  from_array_tagged (f.metadata.lookup extensionKey) array

/-- `FromArrow::from_record_batch`: decode each (field, column) pair
and recompose a dense internal chunk with the batch's row count. -/
def from_record_batch (batch : RecordBatch) : Except ArrayError DataChunk := do
  let columns ← from_arrays_zip batch.schema.fields batch.columns
  .ok (DataChunk.new columns batch.num_rows)

/-- The decode-after-encode pipeline of the round-trip property. -/
def encodeThenDecode (schema : Schema) (chunk : DataChunk) :
    Except ArrayError DataChunk :=
  match to_record_batch schema chunk with
  | .ok batch => from_record_batch batch
  | .error e => .error e

/-! ### Additional definitions used by the verification statements -/

/-- Number of set bits in a visibility mask: the row count of a
compacted chunk. -/
def countTrue : List Bool → Nat
  | [] => 0
  | b :: r => (if b then 1 else 0) + countTrue r

mutual

/-- Every field of an interchange field tree — the field itself and all
fields nested under list/struct types — is marked nullable. -/
def fieldAllNullable : AField → Bool
  | .mk _ dt nb _ => nb && dtypeAllNullable dt

def dtypeAllNullable : ADataType → Bool
  | .List item => fieldAllNullable item
  | .Struct fields => fieldsAllNullable fields
  | _ => true

def fieldsAllNullable : List AField → Bool
  | [] => true
  | f :: fs => fieldAllNullable f && fieldsAllNullable fs

end

/-- The two-field struct type used to exercise the struct round-trip:
an Int32 field and a Varchar field. -/
def structPairFields : List (String × DataType) := [("a", .Int32), ("b", .Varchar)]

def structPairAFields : List AField := [fieldNew "a" .Int32 true, fieldNew "b" .Utf8 true]

def structPairDT : ADataType := .Struct structPairAFields

/-- The decimal sample of §8 of the spec: null, the three non-finite
sentinels, and two finite values. -/
def decimalSentinelSample : List (Option Decimal) :=
  [none, some .NaN, some .PositiveInf, some .NegativeInf,
   some (.Normalized 1234 1), some (.Normalized 123456 3)]

/-! ## Theorems -/

/-! ### Generic `Except` bind reductions -/

theorem exceptBindOk (a : α) (f : α → Except ArrayError β) :
    (Except.ok a >>= f) = f a := rfl

theorem exceptBindErr (e : ArrayError) (f : α → Except ArrayError β) :
    ((Except.error e : Except ArrayError α) >>= f) = .error e := rfl

/-! ### Two's-complement facts -/

theorem lor_shiftLeft_eq_add (a b k : Nat) (h : a < 2 ^ k) :
    a ||| (b <<< k) = a + b <<< k := by
  apply Nat.eq_of_testBit_eq
  intro i
  rw [Nat.testBit_lor, Nat.testBit_shiftLeft, Nat.shiftLeft_eq]
  rcases Nat.lt_or_ge i k with hik | hik
  · have hd : (decide (i ≥ k)) = false := by simp only [decide_eq_false_iff_not]; omega
    rw [hd, Bool.false_and, Bool.or_false]
    obtain ⟨j, rfl⟩ : ∃ j, k = i + (j + 1) := ⟨k - i - 1, by omega⟩
    have hsplit : a + b * 2 ^ (i + (j + 1)) = a + 2 ^ i * (b * 2 ^ (j + 1)) := by
      rw [Nat.pow_add]
      ring
    rw [Nat.testBit_to_div_mod, Nat.testBit_to_div_mod, hsplit,
      Nat.add_mul_div_left _ _ (Nat.pos_pow_of_pos i (by norm_num))]
    have h2 : b * 2 ^ (j + 1) = b * 2 ^ j * 2 := by
      rw [Nat.pow_succ]
      ring
    rw [h2, Nat.add_mul_mod_self_right]
  · have hd : (decide (i ≥ k)) = true := by simp only [decide_eq_true_eq]; omega
    rw [hd, Bool.true_and]
    have ha : a.testBit i = false :=
      Nat.testBit_lt_two_pow (Nat.lt_of_lt_of_le h (Nat.pow_le_pow_right (by norm_num) hik))
    rw [ha, Bool.false_or]
    obtain ⟨j, rfl⟩ : ∃ j, i = k + j := ⟨i - k, by omega⟩
    have hj : k + j - k = j := by omega
    have hi2 : (2 : Nat) ^ (k + j) = 2 ^ k * 2 ^ j := Nat.pow_add 2 k j
    rw [hj, Nat.testBit_to_div_mod, Nat.testBit_to_div_mod, hi2,
      ← Nat.div_div_eq_div_mul, Nat.mul_comm b,
      Nat.add_mul_div_left _ _ (Nat.pos_pow_of_pos k (by norm_num)),
      Nat.div_eq_of_lt h, Nat.zero_add]

theorem toUnsigned_lt (w : Nat) (x : Int) : toUnsigned w x < 2 ^ w := by
  unfold toUnsigned
  have h1 : 0 ≤ x % (2 : Int) ^ w := Int.emod_nonneg x (by positivity)
  have h2 : x % (2 : Int) ^ w < (2 : Int) ^ w := Int.emod_lt_of_pos x (by positivity)
  have h3 : ((x % (2 : Int) ^ w).toNat : Int) = x % (2 : Int) ^ w := Int.toNat_of_nonneg h1
  have h4 : ((x % (2 : Int) ^ w).toNat : Int) < (((2 : Nat) ^ w : Nat) : Int) := by
    rw [h3]
    push_cast
    exact h2
  exact_mod_cast h4

theorem toUnsigned_cast (w : Nat) (x : Int) :
    ((toUnsigned w x : Nat) : Int) = x % (2 : Int) ^ w := by
  unfold toUnsigned
  exact Int.toNat_of_nonneg (Int.emod_nonneg x (by positivity))

theorem toSigned32_def (n : Nat) :
    toSigned 32 n = if n < 2147483648 then (n : Int) else (n : Int) - 4294967296 := by
  unfold toSigned
  norm_num

theorem toSigned64_def (n : Nat) :
    toSigned 64 n = if n < 9223372036854775808 then (n : Int)
      else (n : Int) - 18446744073709551616 := by
  unfold toSigned
  norm_num

theorem toSigned128_def (n : Nat) :
    toSigned 128 n = if n < 170141183460469231731687303715884105728 then (n : Int)
      else (n : Int) - 340282366920938463463374607431768211456 := by
  unfold toSigned
  norm_num

theorem asr32_def (x : Int) : asr x 32 = x / 4294967296 := by
  unfold asr
  norm_num

theorem asr64_def (x : Int) : asr x 64 = x / 18446744073709551616 := by
  unfold asr
  norm_num

/-- Sign extension of a 32-bit pattern recovers any integer congruent
to it that lies in the signed 32-bit range. -/
theorem sext32 (x y : Int) (h : x % 4294967296 = y % 4294967296)
    (hy1 : -2147483648 ≤ y) (hy2 : y < 2147483648) :
    toSigned 32 (toUnsigned 32 x) = y := by
  have hc := toUnsigned_cast 32 x
  have hl := toUnsigned_lt 32 x
  norm_num at hc hl
  rw [toSigned32_def]
  split_ifs with hi <;> omega

/-- Sign extension of a 64-bit pattern recovers any integer congruent
to it that lies in the signed 64-bit range. -/
theorem sext64 (x y : Int) (h : x % 18446744073709551616 = y % 18446744073709551616)
    (hy1 : -9223372036854775808 ≤ y) (hy2 : y < 9223372036854775808) :
    toSigned 64 (toUnsigned 64 x) = y := by
  have hc := toUnsigned_cast 64 x
  have hl := toUnsigned_lt 64 x
  norm_num at hc hl
  rw [toSigned64_def]
  split_ifs with hi <;> omega

/-! ### Structural equality is reflexive -/

theorem beq_refl_bounded (n : Nat) :
    (∀ dt : ADataType, sizeOf dt < n → beqADataType dt dt = true)
    ∧ (∀ f : AField, sizeOf f < n → beqAField f f = true)
    ∧ (∀ l : List AField, sizeOf l < n → beqAFieldList l l = true) := by
  induction n with
  | zero =>
    exact ⟨fun dt h => absurd h (Nat.not_lt_zero _),
      fun f h => absurd h (Nat.not_lt_zero _),
      fun l h => absurd h (Nat.not_lt_zero _)⟩
  | succ n ih =>
    obtain ⟨ihd, ihf, ihl⟩ := ih
    refine ⟨?_, ?_, ?_⟩
    · intro dt hdt
      cases dt with
      | Decimal128 p sc => show (p == p && sc == sc) = true; simp
      | Decimal256 p sc => show (p == p && sc == sc) = true; simp
      | Time64 u => show (u == u) = true; simp
      | Timestamp u tz => show (u == u && tz == tz) = true; simp
      | Interval u => show (u == u) = true; simp
      | List f =>
        show beqAField f f = true
        exact ihf f (by simp at hdt; omega)
      | Struct fs =>
        show beqAFieldList fs fs = true
        exact ihl fs (by simp at hdt; omega)
      | Boolean => rfl
      | Int16 => rfl
      | Int32 => rfl
      | Int64 => rfl
      | Float32 => rfl
      | Float64 => rfl
      | Date32 => rfl
      | Utf8 => rfl
      | LargeUtf8 => rfl
      | Binary => rfl
      | LargeBinary => rfl
    · intro f hf
      obtain ⟨nm, dt, nb, md⟩ := f
      show (nm == nm && beqADataType dt dt && nb == nb && md == md) = true
      have hdt : beqADataType dt dt = true := ihd dt (by simp at hf; omega)
      simp [hdt]
    · intro l hl
      cases l with
      | nil => rfl
      | cons f fs =>
        show (beqAField f f && beqAFieldList fs fs) = true
        have h1 : beqAField f f = true := ihf f (by simp at hl; omega)
        have h2 : beqAFieldList fs fs = true := ihl fs (by simp at hl; omega)
        simp [h1, h2]

theorem beqADataType_refl (dt : ADataType) : beqADataType dt dt = true :=
  (beq_refl_bounded (sizeOf dt + 1)).1 dt (Nat.lt_succ_self _)

theorem beqAField_refl (f : AField) : beqAField f f = true :=
  (beq_refl_bounded (sizeOf f + 1)).2.1 f (Nat.lt_succ_self _)

theorem beq_float64_iff (dt : ADataType) :
    beqADataType .Float64 dt = true ↔ dt = .Float64 := by
  cases dt
  case Float64 => exact ⟨fun _ => rfl, fun _ => rfl⟩
  all_goals exact ⟨fun h => Bool.noConfusion h, fun h => ADataType.noConfusion h⟩


/-! ### Compaction facts -/

theorem compact_visibility_none (c : DataChunk) : (c.compact).visibility = none := by
  unfold DataChunk.compact
  cases hv : c.visibility <;> simp [hv]

theorem compact_is_compacted (c : DataChunk) : (c.compact).is_compacted = true := by
  unfold DataChunk.is_compacted
  rw [compact_visibility_none]
  rfl

theorem compact_of_compacted (c : DataChunk) (h : c.is_compacted = true) :
    c.compact = c := by
  unfold DataChunk.is_compacted at h
  unfold DataChunk.compact
  cases hv : c.visibility with
  | none => rfl
  | some vis => rw [hv] at h; simp at h

theorem select_eq_compact (c : DataChunk) :
    (if c.is_compacted then c else c.compact) = c.compact := by
  by_cases h : c.is_compacted = true
  · rw [if_pos h, compact_of_compacted c h]
  · rw [if_neg (by simpa using h)]

theorem compact_compact (c : DataChunk) : (c.compact).compact = c.compact :=
  compact_of_compacted _ (compact_is_compacted c)

/-- The source's recursive equation for `to_record_batch`: a chunk is
encoded exactly as its compaction is. -/
theorem to_record_batch_compacts (schema : Schema) (c : DataChunk) :
    to_record_batch schema c = to_record_batch schema c.compact := by
  unfold to_record_batch
  rw [select_eq_compact, select_eq_compact, compact_compact]

theorem applyVis_length (vis : List Bool) (l : List α) (h : l.length = vis.length) :
    (applyVis vis l).length = countTrue vis := by
  induction l generalizing vis with
  | nil => cases vis with
    | nil => rfl
    | cons b bs => simp at h
  | cons x xs ih =>
    cases vis with
    | nil => simp at h
    | cons b bs =>
      simp at h
      unfold applyVis countTrue
      cases b with
      | true => simp [ih bs h]; omega
      | false => simp [ih bs h]

theorem filterRows_len (vis : List Bool) (a : ArrayImpl) (h : a.len = vis.length) :
    (filterRows vis a).len = countTrue vis := by
  cases a <;> (unfold filterRows ArrayImpl.len at *; exact applyVis_length vis _ h)

/-! ### Bitmap reconstruction -/

theorem range_map_getD (l : List Bool) :
    (List.range l.length).map (fun i => l.getD i false) = l := by
  induction l with
  | nil => rfl
  | cons x xs ih =>
    rw [List.length_cons, List.range_succ_eq_map, List.map_cons, List.map_map]
    have he : ((fun i => (x :: xs).getD i false) ∘ Nat.succ) = fun i => xs.getD i false := by
      funext i
      simp [Function.comp, List.getD_cons_succ]
    rw [he, ih]
    simp [List.getD_cons_zero]

/-! ### Nullability of mapped fields -/

mutual

theorem to_arrow_field_nullable (ty : DataType) (name : String) (f : AField)
    (h : to_arrow_field name ty = .ok f) : fieldAllNullable f = true := by
  cases ty with
  | Struct fields =>
    rw [to_arrow_field] at h
    cases hfs : to_arrow_fields fields with
    | ok fs =>
      rw [hfs, exceptBindOk] at h
      simp only [Except.ok.injEq] at h
      have := to_arrow_fields_nullable fields fs hfs
      rw [← h]
      simp [fieldAllNullable, fieldNew, dtypeAllNullable, this]
    | error e =>
      rw [hfs, exceptBindErr] at h
      exact Except.noConfusion h
  | List elem =>
    rw [to_arrow_field] at h
    cases hit : to_arrow_field listItemName elem with
    | ok item =>
      rw [hit, exceptBindOk] at h
      simp only [Except.ok.injEq] at h
      have := to_arrow_field_nullable elem listItemName item hit
      rw [← h]
      simp [fieldAllNullable, fieldNew, dtypeAllNullable, this]
    | error e =>
      rw [hit, exceptBindErr] at h
      exact Except.noConfusion h
  | Boolean =>
    rw [to_arrow_field] at h
    simp only [Except.ok.injEq] at h
    rw [← h]
    rfl
  | Int16 =>
    rw [to_arrow_field] at h
    simp only [Except.ok.injEq] at h
    rw [← h]
    rfl
  | Int32 =>
    rw [to_arrow_field] at h
    simp only [Except.ok.injEq] at h
    rw [← h]
    rfl
  | Int64 =>
    rw [to_arrow_field] at h
    simp only [Except.ok.injEq] at h
    rw [← h]
    rfl
  | Int256 =>
    rw [to_arrow_field] at h
    simp only [Except.ok.injEq] at h
    rw [← h]
    rfl
  | Float32 =>
    rw [to_arrow_field] at h
    simp only [Except.ok.injEq] at h
    rw [← h]
    rfl
  | Float64 =>
    rw [to_arrow_field] at h
    simp only [Except.ok.injEq] at h
    rw [← h]
    rfl
  | Date =>
    rw [to_arrow_field] at h
    simp only [Except.ok.injEq] at h
    rw [← h]
    rfl
  | Time =>
    rw [to_arrow_field] at h
    simp only [Except.ok.injEq] at h
    rw [← h]
    rfl
  | Timestamp =>
    rw [to_arrow_field] at h
    simp only [Except.ok.injEq] at h
    rw [← h]
    rfl
  | Timestamptz =>
    rw [to_arrow_field] at h
    simp only [Except.ok.injEq] at h
    rw [← h]
    rfl
  | Interval =>
    rw [to_arrow_field] at h
    simp only [Except.ok.injEq] at h
    rw [← h]
    rfl
  | Varchar =>
    rw [to_arrow_field] at h
    simp only [Except.ok.injEq] at h
    rw [← h]
    rfl
  | Bytea =>
    rw [to_arrow_field] at h
    simp only [Except.ok.injEq] at h
    rw [← h]
    rfl
  | Serial =>
    rw [to_arrow_field] at h
    simp only [Except.ok.injEq] at h
    rw [← h]
    rfl
  | Decimal =>
    rw [to_arrow_field] at h
    simp only [Except.ok.injEq] at h
    rw [← h]
    rfl
  | Jsonb =>
    rw [to_arrow_field] at h
    simp only [Except.ok.injEq] at h
    rw [← h]
    rfl

theorem to_arrow_fields_nullable (l : List (String × DataType)) (fs : List AField)
    (h : to_arrow_fields l = .ok fs) : fieldsAllNullable fs = true := by
  cases l with
  | nil =>
    rw [to_arrow_fields] at h
    simp only [Except.ok.injEq] at h
    rw [← h]
    rfl
  | cons p rest =>
    obtain ⟨n, t⟩ := p
    rw [to_arrow_fields] at h
    cases hf : to_arrow_field n t with
    | ok f0 =>
      rw [hf, exceptBindOk] at h
      cases hrest : to_arrow_fields rest with
      | ok fs0 =>
        rw [hrest, exceptBindOk] at h
        simp only [Except.ok.injEq] at h
        have h1 := to_arrow_field_nullable t n f0 hf
        have h2 := to_arrow_fields_nullable rest fs0 hrest
        rw [← h]
        simp [fieldsAllNullable, h1, h2]
      | error e =>
        rw [hrest, exceptBindErr] at h
        exact Except.noConfusion h
    | error e =>
      rw [hf, exceptBindErr] at h
      exact Except.noConfusion h

end


/-! ## Claim theorems -/

/-- C1: the claimed round-trip `decode(encode(schema, batch)) == batch`
for every primitive LogicalType fails on the code: for an Interval
column whose `usecs` is `10 ^ 16` (a representable 64-bit value),
the encoder computes `usecs * 1000 = 10 ^ 19` in wrapping 64-bit
arithmetic, and decoding the encoded batch against the naturally
derived schema returns `usecs = -8446744073709551`, not the original
value.  The three conjuncts evaluate the natural schema derivation, the
full encode-then-decode pipeline at the failing batch, and the
disagreement of the decoded value with the original. -/
theorem C1_roundtrip_fails_on_interval_overflow :
    to_arrow_field "a" .Interval = .ok (fieldNew "a" (.Interval .MonthDayNano) true)
    ∧ encodeThenDecode ⟨[fieldNew "a" (.Interval .MonthDayNano) true]⟩
        ⟨[.Interval [some ⟨0, 0, 10 ^ 16⟩]], none⟩
      = .ok ⟨[.Interval [some ⟨0, 0, -8446744073709551⟩]], none⟩
    ∧ (-8446744073709551 : Int) ≠ 10 ^ 16 :=
  ⟨rfl, rfl, by decide⟩

/-- C2: for every Interval whose months and days fit in 32 signed bits
and whose nanosecond product fits in 64 signed bits, the encoder packs
it into a 128-bit integer with the exact layout months (bits 0-31),
days (bits 32-63), nanoseconds = usecs * 1000 (bits 64-127), each
sub-field masked independently after sign extension, and the decoder
inverts this packing exactly. -/
theorem C2_interval_packing_roundtrip (m d u : Int)
    (hm1 : -(2 ^ 31) ≤ m) (hm2 : m < 2 ^ 31)
    (hd1 : -(2 ^ 31) ≤ d) (hd2 : d < 2 ^ 31)
    (hu1 : -(2 ^ 63) ≤ u * 1000) (hu2 : u * 1000 < 2 ^ 63) :
    Interval.into_arrow ⟨m, d, u⟩ =
      toSigned 128 (toUnsigned 32 m + toUnsigned 32 d * 2 ^ 32 +
        toUnsigned 64 (u * 1000) * 2 ^ 64) ∧
    Interval.from_arrow (Interval.into_arrow ⟨m, d, u⟩) = ⟨m, d, u⟩ := by
  have hM := toUnsigned_lt 32 m
  have hD := toUnsigned_lt 32 d
  have hN := toUnsigned_lt 64 (u * 1000)
  have hMc := toUnsigned_cast 32 m
  have hDc := toUnsigned_cast 32 d
  have hNc := toUnsigned_cast 64 (u * 1000)
  norm_num at hM hD hN hMc hDc hNc hm1 hm2 hd1 hd2 hu1 hu2
  have hraw : Interval.into_arrow ⟨m, d, u⟩ =
      toSigned 128 (toUnsigned 32 m ||| (toUnsigned 32 d <<< 32) |||
        (toUnsigned 64 (u * 1000) <<< 64)) := rfl
  have hlor1 : toUnsigned 32 m ||| (toUnsigned 32 d <<< 32) =
      toUnsigned 32 m + toUnsigned 32 d <<< 32 :=
    lor_shiftLeft_eq_add _ _ 32 (by norm_num; omega)
  have hlor2 : (toUnsigned 32 m + toUnsigned 32 d <<< 32) |||
        (toUnsigned 64 (u * 1000) <<< 64) =
      (toUnsigned 32 m + toUnsigned 32 d <<< 32) + toUnsigned 64 (u * 1000) <<< 64 :=
    lor_shiftLeft_eq_add _ _ 64 (by rw [Nat.shiftLeft_eq]; norm_num; omega)
  have hpack : Interval.into_arrow ⟨m, d, u⟩ =
      toSigned 128 (toUnsigned 32 m + toUnsigned 32 d * 2 ^ 32 +
        toUnsigned 64 (u * 1000) * 2 ^ 64) := by
    rw [hraw, hlor1, hlor2, Nat.shiftLeft_eq, Nat.shiftLeft_eq]
  refine ⟨hpack, ?_⟩
  rw [hpack]
  set M := toUnsigned 32 m with hMdef
  set D := toUnsigned 32 d with hDdef
  set Nn := toUnsigned 64 (u * 1000) with hNdef
  set V : Int := toSigned 128 (M + D * 2 ^ 32 + Nn * 2 ^ 64) with hVdef
  have hNcast : ((M + D * 2 ^ 32 + Nn * 2 ^ 64 : Nat) : Int) =
      (M : Int) + (D : Int) * 4294967296 + (Nn : Int) * 18446744073709551616 := by
    push_cast
    norm_num
  have hVval : V = (M : Int) + (D : Int) * 4294967296 + (Nn : Int) * 18446744073709551616 ∨
      V = (M : Int) + (D : Int) * 4294967296 + (Nn : Int) * 18446744073709551616 -
        340282366920938463463374607431768211456 := by
    rw [hVdef, toSigned128_def]
    split_ifs <;> [left; right] <;> rw [hNcast]
  have hfa : Interval.from_arrow V =
      ⟨toSigned 32 (toUnsigned 32 V), toSigned 32 (toUnsigned 32 (asr V 32)),
        Int.tdiv (toSigned 64 (toUnsigned 64 (asr V 64))) 1000⟩ := rfl
  rw [hfa]
  rcases hVval with h | h
  all_goals {
    have e1 : toSigned 32 (toUnsigned 32 V) = m := sext32 V m (by omega) (by omega) (by omega)
    have e2 : toSigned 32 (toUnsigned 32 (asr V 32)) = d := by
      rw [asr32_def]
      exact sext32 _ d (by omega) (by omega) (by omega)
    have e3 : toSigned 64 (toUnsigned 64 (asr V 64)) = u * 1000 := by
      rw [asr64_def]
      exact sext64 _ (u * 1000) (by omega) (by omega) (by omega)
    rw [e1, e2, e3, Int.mul_tdiv_cancel u (by norm_num)]
  }

/-- C2 witness: the specified extreme values `(1_000_000, 1_000,
1_000_000_000 usecs)` and their negation round-trip exactly through the
interval codec. -/
theorem C2_witness_extremes :
    (Interval.from_arrow (Interval.into_arrow ⟨1000000, 1000, 1000000000⟩)
      = ⟨1000000, 1000, 1000000000⟩)
    ∧ (Interval.from_arrow (Interval.into_arrow ⟨-1000000, -1000, -1000000000⟩)
      = ⟨-1000000, -1000, -1000000000⟩) :=
  ⟨(C2_interval_packing_roundtrip 1000000 1000 1000000000 (by decide) (by decide)
      (by decide) (by decide) (by decide) (by decide)).2,
   (C2_interval_packing_roundtrip (-1000000) (-1000) (-1000000000) (by decide) (by decide)
      (by decide) (by decide) (by decide) (by decide)).2⟩

/-- A `u32` offsets buffer whose head is below `2 ^ 31` but that
reaches `2 ^ 31` somewhere in its tail narrows, under `o as i32`, to a
buffer in which a non-negative entry is followed by a negative one, so
the library's adjacent-pair monotonicity check rejects it. -/
theorem offsetsMonotone_narrow_false (a : Nat) (l : List Nat)
    (ha : a < 2 ^ 31) (hb : ∀ o ∈ l, o < 2 ^ 32)
    (hex : ∃ o ∈ l, 2 ^ 31 ≤ o) :
    offsetsMonotone ((a :: l).map (fun o => toSigned 32 (o % 2 ^ 32))) = false := by
  induction l generalizing a with
  | nil =>
    obtain ⟨o, ho, _⟩ := hex
    exact absurd ho (List.not_mem_nil o)
  | cons b rest ih =>
    have hb32 : b < 2 ^ 32 := hb b (List.mem_cons_self b rest)
    by_cases hcross : 2 ^ 31 ≤ b
    · have hna : toSigned 32 (a % 2 ^ 32) = (a : Int) := by
        rw [Nat.mod_eq_of_lt (by omega), toSigned32_def, if_pos (by omega)]
      have hnb : toSigned 32 (b % 2 ^ 32) = (b : Int) - 4294967296 := by
        rw [Nat.mod_eq_of_lt hb32, toSigned32_def, if_neg (by omega)]
      show (decide (toSigned 32 (a % 2 ^ 32) ≤ toSigned 32 (b % 2 ^ 32)) &&
        offsetsMonotone ((b :: rest).map (fun o => toSigned 32 (o % 2 ^ 32)))) = false
      rw [hna, hnb,
        decide_eq_false (by omega : ¬ ((a : Int) ≤ (b : Int) - 4294967296)),
        Bool.false_and]
    · have hex' : ∃ o ∈ rest, 2 ^ 31 ≤ o := by
        obtain ⟨o, ho, hge⟩ := hex
        rcases List.mem_cons.mp ho with rfl | hmem
        · exact absurd hge hcross
        · exact ⟨o, hmem, hge⟩
      have htail := ih b (by omega) (fun o ho => hb o (List.mem_cons_of_mem b ho)) hex'
      show (decide (toSigned 32 (a % 2 ^ 32) ≤ toSigned 32 (b % 2 ^ 32)) &&
        offsetsMonotone ((b :: rest).map (fun o => toSigned 32 (o % 2 ^ 32)))) = false
      rw [htail, Bool.and_false]

/-- C3 counterexample: an offsets buffer containing `2 ^ 31` (as for a
row of `2 ^ 31` elements — the offset handling never reads the child,
so an empty child stands in for the over-long one) narrows to
`[0, -(2 ^ 31)]`, which fails the non-negativity/monotonicity
assertions of the library's checked offsets constructor: the encoder
aborts through the modelled library panic instead of returning the
typed `OffsetOverflow` result the claim describes — indeed no
`OffsetOverflow` error value exists anywhere in the code. -/
theorem C3_counterexample_offset_wrap_aborts :
    to_array (.List (fieldNew "item" .Boolean true))
        (.List (.Bool []) [true] [0, 2 ^ 31])
      = .error (.internal offsetBufferPanicMsg) := rfl

/-- C3 amended: encoding a List array encodes the child recursively
against the item field, narrows each `u32` offset by the bit
reinterpretation `o as i32` (low 32 bits, wrapping past `i32::MAX` to
negative values) and hands the narrowed buffer to the library's checked
offsets constructor, succeeding exactly when that buffer passes its
non-negativity/monotonicity assertions and otherwise aborting through
the library panic (first conjunct); offsets up to `i32::MAX` are
narrowed exactly (second conjunct); and a `u32` offsets buffer that
starts at `0` and reaches `2 ^ 31` anywhere always fails the assertions
(third conjunct), so an oversized offset ends in the abort — never in a
typed offset-overflow error, which the code does not have. -/
theorem C3_offsets_narrowed_with_library_abort :
    (∀ (field : AField) (v : ArrayImpl) (bm : List Bool) (offs : List Nat)
        (values : ArrowArray), to_array field.dataType v = .ok values →
      to_array (.List field) (.List v bm offs)
        = if offsetBufferValid (offs.map (fun o => toSigned 32 (o % 2 ^ 32))) then
            .ok (.List field (offs.map (fun o => toSigned 32 (o % 2 ^ 32))) values
              (if bm.all (fun b => b) then none else some bm))
          else .error (.internal offsetBufferPanicMsg))
    ∧ (∀ o : Nat, o < 2 ^ 31 → toSigned 32 (o % 2 ^ 32) = (o : Int))
    ∧ (∀ offs : List Nat, offs.head? = some 0 → (∀ o ∈ offs, o < 2 ^ 32) →
        (∃ o ∈ offs, 2 ^ 31 ≤ o) →
        offsetBufferValid (offs.map (fun o => toSigned 32 (o % 2 ^ 32))) = false) := by
  refine ⟨?_, ?_, ?_⟩
  · intro field v bm offs values hv
    rw [to_array, hv, exceptBindOk]
    show (if offsetBufferValid (offs.map (fun o => toSigned 32 (o % 2 ^ 32))) = true then
        (Except.ok (ArrowArray.List field (offs.map (fun o => toSigned 32 (o % 2 ^ 32)))
            values (if (bm.all fun b => b) = true then none else some bm)) >>=
          fun arrow_array =>
            if beqADataType arrow_array.dataType (.List field) then Except.ok arrow_array
            else arrow_cast arrow_array (.List field))
      else (Except.error (ArrayError.internal offsetBufferPanicMsg) >>=
          fun arrow_array =>
            if beqADataType arrow_array.dataType (.List field) then Except.ok arrow_array
            else arrow_cast arrow_array (.List field))) = _
    by_cases hval :
        offsetBufferValid (offs.map (fun o => toSigned 32 (o % 2 ^ 32))) = true
    · rw [if_pos hval, exceptBindOk, if_pos hval]
      show (if beqADataType (.List field) (.List field) then _ else _) = _
      rw [show beqADataType (.List field) (.List field) = beqAField field field from rfl,
        beqAField_refl field, if_pos rfl]
    · rw [if_neg hval, exceptBindErr, if_neg hval]
  · intro o ho
    rw [Nat.mod_eq_of_lt (by omega), toSigned32_def, if_pos (by omega)]
  · intro offs hhead hbound hex
    cases offs with
    | nil => exact absurd hhead (by simp)
    | cons a l =>
      have ha : a = 0 := by simpa using hhead
      subst ha
      have hex' : ∃ o ∈ l, 2 ^ 31 ≤ o := by
        obtain ⟨o, ho, hge⟩ := hex
        rcases List.mem_cons.mp ho with rfl | hmem
        · exact absurd hge (by omega)
        · exact ⟨o, hmem, hge⟩
      have htail := offsetsMonotone_narrow_false 0 l (by omega)
        (fun o ho => hbound o (List.mem_cons_of_mem 0 ho)) hex'
      show (decide ((0 : Int) ≤ toSigned 32 (0 % 2 ^ 32)) &&
        offsetsMonotone ((0 :: l).map (fun o => toSigned 32 (o % 2 ^ 32)))) = false
      rw [htail, Bool.and_false]

/-- C3 amended witness: a small list array with in-range offsets
encodes through the characterization (and its accepted offsets pass the
modelled library check), in-range narrowing is exact at `5`, and the
offsets buffer `[0, 2 ^ 31]` is rejected by the modelled check. -/
theorem C3_amended_witness :
    (to_array (.List (fieldNew "item" .Boolean true))
        (.List (.Bool [some true]) [true] [0, 1])
      = if offsetBufferValid ([0, 1].map (fun o => toSigned 32 (o % 2 ^ 32))) then
          .ok (.List (fieldNew "item" .Boolean true)
            ([0, 1].map (fun o => toSigned 32 (o % 2 ^ 32))) (.Boolean [some true])
            (if [true].all (fun b => b) then none else some [true]))
        else .error (.internal offsetBufferPanicMsg))
    ∧ toSigned 32 (5 % 2 ^ 32) = (5 : Int)
    ∧ offsetBufferValid ([0, 2 ^ 31].map (fun o => toSigned 32 (o % 2 ^ 32))) = false := by
  refine ⟨?_, ?_, ?_⟩
  · exact C3_offsets_narrowed_with_library_abort.1 (fieldNew "item" .Boolean true)
      (.Bool [some true]) [true] [0, 1] (.Boolean [some true]) rfl
  · exact C3_offsets_narrowed_with_library_abort.2.1 5 (by decide)
  · exact C3_offsets_narrowed_with_library_abort.2.2 [0, 2 ^ 31] rfl (by decide)
      ⟨2 ^ 31, by decide, by decide⟩

/-- C4: decoding any field whose extension tag is not one of the two
recognized tags fails, at the type level and at the array level, with
the unsupported-extension error; the value is never silently decoded as
plain text. -/
theorem C4_unknown_extension_tag_rejected (tag : String) (pt : ADataType)
    (a : ArrowArray) (h1 : tag ≠ arrowudfDecimalTag) (h2 : tag ≠ arrowudfJsonTag) :
    from_extension_type tag pt = .error (.from_arrow (unsupportedExtMsg tag))
    ∧ from_extension_array tag a = .error (.from_arrow (unsupportedExtMsg tag)) := by
  rw [arrowudfDecimalTag] at h1
  rw [arrowudfJsonTag] at h2
  constructor
  · unfold from_extension_type
    split
    · exact absurd rfl h1
    · exact absurd rfl h2
    · rfl
  · unfold from_extension_array
    split
    · exact absurd rfl h1
    · exact absurd rfl h2
    · rfl

/-- C4 witness: the unrecognized tag `vendor.unknown` is rejected by
both decoder entry points. -/
theorem C4_witness_unknown_tag :
    from_extension_type "vendor.unknown" .Utf8
      = .error (.from_arrow (unsupportedExtMsg "vendor.unknown"))
    ∧ from_extension_array "vendor.unknown" (.Utf8 [some "1"])
      = .error (.from_arrow (unsupportedExtMsg "vendor.unknown")) :=
  C4_unknown_extension_tag_rejected "vendor.unknown" .Utf8 (.Utf8 [some "1"])
    (by decide) (by decide)

/-- C5: the decoder inspects the extension tag before the physical-type
switch: a field carrying a tag is dispatched to the extension decoder
(for types and for arrays, whatever the physical payload), and an
untagged string-typed field decodes to Varchar / a plain Utf8 array,
never to Decimal or Jsonb. -/
theorem C5_extension_tag_dispatch (f : AField) :
    (∀ tag, f.metadata.lookup extensionKey = some tag →
      from_field f = from_extension_type tag f.dataType
      ∧ ∀ a, from_array f a = from_extension_array tag a)
    ∧ (f.metadata.lookup extensionKey = none → f.dataType = .Utf8 →
      from_field f = .ok .Varchar)
    ∧ (∀ d, f.metadata.lookup extensionKey = none →
      from_array f (.Utf8 d) = .ok (.Utf8 d)) := by
  obtain ⟨n, dt, nb, md⟩ := f
  simp only [AField.metadata, AField.dataType]
  refine ⟨?_, ?_, ?_⟩
  · intro tag htag
    constructor
    · show (match md.lookup extensionKey with
        | some type_name => from_extension_type type_name dt
        | none => from_field_by_type dt) = from_extension_type tag dt
      rw [htag]
    · intro a
      show from_array_tagged (md.lookup extensionKey) a = from_extension_array tag a
      rw [htag]
      cases a <;> rfl
  · intro hnone hdt
    subst hdt
    show (match md.lookup extensionKey with
      | some type_name => from_extension_type type_name .Utf8
      | none => from_field_by_type .Utf8) = .ok .Varchar
    rw [hnone]
    rfl
  · intro d hnone
    show from_array_tagged (md.lookup extensionKey) (.Utf8 d) = .ok (.Utf8 d)
    rw [hnone]
    rfl

/-- C5 witness: a json-tagged string field is dispatched to the
extension decoder; an untagged string field decodes to Varchar / a
plain string array. -/
theorem C5_witness_dispatch :
    (from_field (AField.mk "x" .Utf8 true [(extensionKey, "arrowudf.json")])
        = from_extension_type "arrowudf.json" .Utf8
      ∧ from_array (AField.mk "x" .Utf8 true [(extensionKey, "arrowudf.json")])
          (.Utf8 [some "1"])
        = from_extension_array "arrowudf.json" (.Utf8 [some "1"]))
    ∧ from_field (fieldNew "y" .Utf8 true) = .ok .Varchar
    ∧ from_array (fieldNew "y" .Utf8 true) (.Utf8 [some "s"]) = .ok (.Utf8 [some "s"]) := by
  obtain ⟨ha, hb, hc⟩ :=
    C5_extension_tag_dispatch (AField.mk "x" .Utf8 true [(extensionKey, "arrowudf.json")])
  obtain ⟨hd, he, hf'⟩ := C5_extension_tag_dispatch (fieldNew "y" .Utf8 true)
  obtain ⟨h1, h2⟩ := ha "arrowudf.json" rfl
  exact ⟨⟨h1, h2 (.Utf8 [some "1"])⟩, he rfl rfl, hf' [some "s"] rfl⟩

/-- C6: encoding a chunk with a pending visibility mask is identical to
encoding its compaction; the compaction carries no mask (so no mask
state can reach the interchange batch), and its columns are dense —
exactly one row per visible row. -/
theorem C6_encode_compacts_pending_mask (schema : Schema) (c : DataChunk) :
    to_record_batch schema c = to_record_batch schema c.compact
    ∧ (c.compact).is_compacted = true
    ∧ (∀ vis, c.visibility = some vis →
        (∀ a ∈ c.columns, a.len = vis.length) →
        ∀ a' ∈ (c.compact).columns, a'.len = countTrue vis) := by
  refine ⟨to_record_batch_compacts schema c, compact_is_compacted c, ?_⟩
  intro vis hvis hlen a' ha'
  unfold DataChunk.compact at ha'
  rw [hvis] at ha'
  simp only [List.mem_map] at ha'
  obtain ⟨a, ha, rfl⟩ := ha'
  exact filterRows_len vis a (hlen a ha)

/-- C6 witness: a three-row Int32 chunk with mask `[true, false, true]`
encodes as its compaction, which is dense with two rows. -/
theorem C6_witness_masked_chunk :
    (to_record_batch ⟨[fieldNew "a" .Int32 true]⟩
        ⟨[.Int32 [some 1, some 2, some 3]], some [true, false, true]⟩
      = to_record_batch ⟨[fieldNew "a" .Int32 true]⟩
        (DataChunk.compact ⟨[.Int32 [some 1, some 2, some 3]], some [true, false, true]⟩))
    ∧ (DataChunk.compact
        ⟨[.Int32 [some 1, some 2, some 3]], some [true, false, true]⟩).is_compacted = true
    ∧ (∀ a' ∈ (DataChunk.compact ⟨[.Int32 [some 1, some 2, some 3]],
        some [true, false, true]⟩).columns, a'.len = countTrue [true, false, true]) := by
  obtain ⟨h1, h2, h3⟩ := C6_encode_compacts_pending_mask ⟨[fieldNew "a" .Int32 true]⟩
    ⟨[.Int32 [some 1, some 2, some 3]], some [true, false, true]⟩
  refine ⟨h1, h2, h3 [true, false, true] rfl ?_⟩
  intro a ha
  simp only [List.mem_singleton] at ha
  subst ha
  rfl

/-- C7: when the produced array's physical type differs from the target
field's declared type, the encoder applies the generic interchange
cast: encoding a Float64 column against a Float32 target succeeds with
the narrowed values, while an incompatible target (a struct type for a
float column) makes the per-column conversion — and hence the whole
batch encode — fail with the cast-failure error. -/
theorem C7_schema_mismatch_cast :
    (∀ (dt : ADataType) (d : List (Option Nat)), dt ≠ .Float64 →
      to_array dt (.Float64 d) = arrow_cast (.Float64 d) dt)
    ∧ (∀ d : List (Option Nat),
      to_array .Float32 (.Float64 d)
        = .ok (.Float32 (d.map (Option.map float64_to_float32))))
    ∧ (∀ (d : List (Option Nat)) (fs : List AField),
      to_array (.Struct fs) (.Float64 d) = .error (.to_arrow castFailureMsg))
    ∧ (∀ (nm : String) (fs : List AField) (d : List (Option Nat)),
      to_record_batch ⟨[AField.mk nm (.Struct fs) true []]⟩ ⟨[.Float64 d], none⟩
        = .error (.to_arrow castFailureMsg)) := by
  refine ⟨?_, fun d => rfl, fun d fs => rfl, fun nm fs d => rfl⟩
  intro dt d hne
  have hb : beqADataType (ArrowArray.Float64 d).dataType dt = false := by
    rw [ArrowArray.dataType]
    rcases hx : beqADataType .Float64 dt with _ | _
    · rfl
    · exact absurd ((beq_float64_iff dt).mp hx) hne
  show (if beqADataType (ArrowArray.Float64 d).dataType dt then Except.ok (ArrowArray.Float64 d)
      else arrow_cast (.Float64 d) dt) = arrow_cast (.Float64 d) dt
  rw [hb]
  rfl

/-- C7 witness: the Float64 → Float32 coercion succeeds via the cast,
and a struct-typed target fails the column conversion and the whole
batch encode. -/
theorem C7_witness_float_and_struct :
    (to_array .Float32 (.Float64 [some 5, none])
        = arrow_cast (.Float64 [some 5, none]) .Float32)
    ∧ to_array .Float32 (.Float64 [some 5, none]) = .ok (.Float32 [some 5, none])
    ∧ to_array (.Struct []) (.Float64 [some 5, none]) = .error (.to_arrow castFailureMsg)
    ∧ to_record_batch ⟨[AField.mk "t" (.Struct []) true []]⟩ ⟨[.Float64 [some 5, none]], none⟩
        = .error (.to_arrow castFailureMsg) := by
  obtain ⟨h1, h2, h3, h4⟩ := C7_schema_mismatch_cast
  exact ⟨h1 .Float32 [some 5, none] (fun hx => ADataType.noConfusion hx),
    h2 [some 5, none], h3 [some 5, none] [], h4 "t" [] [some 5, none]⟩

/-- C8: the decimal sample `{null, NaN, +Inf, -Inf, 123.4, 123.456}`
round-trips exactly through both text carriers: rendering to the
short-text (string) carrier and parsing back, and rendering to the
long-text (large-binary) carrier and UTF-8-decoding/parsing back,
reproduce the sample value-for-value and null-for-null, with the three
sentinel literals preserved; the extension-array decoder recovers it
from the string carrier as well. -/
theorem C8_decimal_sentinels_roundtrip :
    decimalFromStrings (decimalSentinelSample.map (Option.map Decimal.toText))
      = .ok decimalSentinelSample
    ∧ decimalFromLargeBinary (decimalToLargeBinary decimalSentinelSample)
      = .ok decimalSentinelSample
    ∧ decimal_to_arrow .Utf8 decimalSentinelSample
      = .ok (.Utf8 (decimalSentinelSample.map (Option.map Decimal.toText)))
    ∧ from_extension_array arrowudfDecimalTag
        (.Utf8 (decimalSentinelSample.map (Option.map Decimal.toText)))
      = .ok (.Decimal decimalSentinelSample) :=
  ⟨rfl, rfl, rfl, rfl⟩

/-- C9: encoding a struct array attaches the struct-level validity
bitmap as passed (independent of the children), and the encode-decode
round trip reproduces the struct array exactly — whatever the top-level
bitmap and whatever the (non-null or null) children values, so a
top-level-null slot with non-null children keeps both. -/
theorem C9_struct_validity_roundtrip (bm : List Bool) (xs : List (Option Int))
    (ys : List (Option String)) (hx : xs.length = bm.length) :
    to_array structPairDT (.Struct structPairFields [.Int32 xs, .Utf8 ys] bm)
      = .ok (.Struct structPairAFields [.Int32 xs, .Utf8 ys] (some bm))
    ∧ (to_array structPairDT (.Struct structPairFields [.Int32 xs, .Utf8 ys] bm)).bind
        (from_array (fieldNew "x" structPairDT true))
      = .ok (.Struct structPairFields [.Int32 xs, .Utf8 ys] bm) := by
  constructor
  · rfl
  · show (Except.ok (ArrayImpl.Struct structPairFields [.Int32 xs, .Utf8 ys]
        ((List.range xs.length).map (fun i => nullsIsValid (some bm) i))) :
          Except ArrayError ArrayImpl)
      = Except.ok (ArrayImpl.Struct structPairFields [.Int32 xs, .Utf8 ys] bm)
    have hmap : (fun i => nullsIsValid (some bm) i) = fun i => bm.getD i false := rfl
    rw [hmap, hx, range_map_getD]

/-- C9 witness: a one-row struct that is null at the top level while
its Int32 and Varchar children hold non-null values round-trips
preserving both. -/
theorem C9_witness_null_slot_nonnull_children :
    to_array structPairDT
        (.Struct structPairFields [.Int32 [some 7], .Utf8 [some "v"]] [false])
      = .ok (.Struct structPairAFields [.Int32 [some 7], .Utf8 [some "v"]] (some [false]))
    ∧ (to_array structPairDT
        (.Struct structPairFields [.Int32 [some 7], .Utf8 [some "v"]] [false])).bind
        (from_array (fieldNew "x" structPairDT true))
      = .ok (.Struct structPairFields [.Int32 [some 7], .Utf8 [some "v"]] [false]) :=
  C9_struct_validity_roundtrip [false] [some 7] [some "v"] rfl

/-- C10: every field the type mapper produces is nullable, including
the decimal/json extension fields and every field nested inside
list/struct types. -/
theorem C10_mapper_fields_all_nullable (ty : DataType) (name : String) (f : AField)
    (h : to_arrow_field name ty = .ok f) : fieldAllNullable f = true :=
  to_arrow_field_nullable ty name f h

/-- C10 witness: the field tree for `List(Struct(a: Decimal, b:
Jsonb))` is nullable at every level, extension fields included. -/
theorem C10_witness_nested :
    to_arrow_field "x" (.List (.Struct [("a", .Decimal), ("b", .Jsonb)]))
      = .ok (AField.mk "x"
          (.List (AField.mk "item"
            (.Struct [AField.mk "a" .Utf8 true [(extensionKey, arrowudfDecimalTag)],
              AField.mk "b" .Utf8 true [(extensionKey, arrowudfJsonTag)]]) true []))
          true [])
    ∧ fieldAllNullable (AField.mk "x"
          (.List (AField.mk "item"
            (.Struct [AField.mk "a" .Utf8 true [(extensionKey, arrowudfDecimalTag)],
              AField.mk "b" .Utf8 true [(extensionKey, arrowudfJsonTag)]]) true []))
          true []) = true :=
  ⟨rfl, C10_mapper_fields_all_nullable (.List (.Struct [("a", .Decimal), ("b", .Jsonb)]))
    "x" _ rfl⟩

end RW
